import Mathlib

/-!
Verification of the library-management checkout/return/waitlist core.

A shallow embedding of the Django application in
`books/models.py`, `books/serializers.py`, `books/views.py` and
`books/management/commands/send_overdue_notifications.py`.

Modelling conventions:
* Database rows become structures; the database becomes lists of rows inside
  `LibState`.  Catalog text fields (title, author, ISBN, published date) and
  account credentials play no role in the control flow of the verified
  endpoints, so they are not carried around.
* Timestamps (`timezone.now()`) are `Nat` ticks; each request receives the
  current tick `now` as a parameter.  `timedelta(days=14)` is the constant
  `fourteenDays` (in seconds, the resolution being irrelevant).
* `copies_available` is a `PositiveIntegerField`; we embed it as `Int` so that
  its non-negativity is a theorem about the guards in the views, not a
  by-construction fact of the type.
* `request.user` is an authenticated `User` row passed to the handler, as the DRF
  `IsAuthenticated` permission guarantees; the `is_active_member` flag lives on it.
* `send_mail` calls are recorded as `Notification` values carrying the
  user id of the recipient.  In `ReturnAPIView` the call uses `fail_silently=True`
  (and a swallowing `except`), so it cannot influence control flow; in the
  management command it uses `fail_silently=False`, so a raised exception
  aborts the loop — `sendOverdueLoop` threads an explicit success oracle.
* Each HTTP handler returns its outcome (including the HTTP status code the
  view produces) together with the successor database state.
-/

namespace LibraryApp

/-- Rows of `books.models.Book` (the book table).  `copies_available` is the
`PositiveIntegerField(default=1)`; see the module docstring for why it is
embedded as `Int`. -/
structure Book where
  id : Nat
  copies_available : Int
  deriving DecidableEq

/-- The authenticated `users.models.User` account making the request.  Only
the fields read by the verified endpoints are kept. -/
structure User where
  id : Nat
  is_active_member : Bool
  deriving DecidableEq

/-- Loan ledger rows, `books.models.Transaction`: `checkout_date` is set by
`auto_now_add`, `due_date` and `return_date` are nullable datetimes. -/
structure Transaction where
  id : Nat
  user : Nat
  book : Nat
  checkout_date : Nat
  return_date : Option Nat
  due_date : Option Nat
  deriving DecidableEq

/-- Rows of `books.models.Waitlist`; `created_at` is set by `auto_now_add`. -/
structure Waitlist where
  id : Nat
  user : Nat
  book : Nat
  created_at : Nat
  deriving DecidableEq

/-- The database state seen by the endpoints: the three row tables touched by
the coordinator, plus fresh surrogate keys for the two tables it inserts
into. -/
structure LibState where
  books : List Book
  transactions : List Transaction
  waitlists : List Waitlist
  nextTid : Nat
  nextWid : Nat
  deriving DecidableEq

/-- The `timedelta(days=14)` loan period from `Transaction.save`, in seconds. -/
def fourteenDays : Nat := 14 * 24 * 60 * 60

/-- The loan ceiling `CheckoutAPIView.MAX_ACTIVE_TRANSACTIONS`. -/
def MAX_ACTIVE_TRANSACTIONS : Nat := 5

/-- Lookup `Book.objects.get(id=book_id)`, also `get_object_or_404(Book, id=book_id)`. -/
def findBook (s : LibState) (book_id : Nat) : Option Book :=
  s.books.find? (fun b => b.id == book_id)

/-- Row predicate of the queryset
`Transaction.objects.filter(user=user, book=book, return_date__isnull=True)`. -/
def isOpenFor (uid book_id : Nat) (t : Transaction) : Bool :=
  t.user == uid && t.book == book_id && t.return_date.isNone

/-- The count `Transaction.objects.filter(user=user, return_date__isnull=True).count()`
from `CheckoutAPIView.post`. -/
def activeCount (s : LibState) (uid : Nat) : Nat :=
  (s.transactions.filter (fun t => t.user == uid && t.return_date.isNone)).length

/-- The row produced by `Transaction.objects.create(user=user, book=book)`:
`auto_now_add` stamps `checkout_date` with the current time, and
`Transaction.save` fills `due_date` with `now + timedelta(days=14)` because
both `due_date` and `return_date` start unset. -/
def newTransaction (tid uid book_id now : Nat) : Transaction :=
  { id := tid
    user := uid
    book := book_id
    checkout_date := now
    return_date := none
    due_date := some (now + fourteenDays) }

/-- The `Transaction.status` property: derived from the timestamps at read
time ("returned" / "overdue" / "active"). -/
def Transaction.status (t : Transaction) (now : Nat) : String :=
  if t.return_date.isSome then "returned"
  else if (match t.due_date with
           | some d => decide (d < now)
           | none => false) then "overdue"
  else "active"

/-- The distinct failure exits of `CheckoutAPIView.post`.  The two
`validation` kinds are raised by `TransactionCreateSerializer.validate_book_id`
and surface through `serializer.is_valid()` as HTTP 400; the remaining four
are the in-view checks. -/
inductive CheckoutError
  | validationBookMissing
  | validationNoCopies
  | membershipInactive
  | loanLimitReached
  | bookMissing404
  | noCopiesAvailable
  | alreadyCheckedOut
  deriving DecidableEq

/-- Outcome of `CheckoutAPIView.post`: HTTP 201 with the created transaction,
or an HTTP error status with its failure kind. -/
inductive CheckoutResult
  | created (t : Transaction)
  | error (httpStatus : Nat) (e : CheckoutError)
  deriving DecidableEq

/-- HTTP status code carried by a `CheckoutResult` (201 on success). -/
def CheckoutResult.httpStatus : CheckoutResult → Nat
  | .created _ => 201
  | .error c _ => c

/-- Serializer check `TransactionCreateSerializer.validate_book_id`: the book must exist and
have `copies_available > 0`; either violation is a serializer
`ValidationError`, hence an HTTP 400 from the view. -/
def validate_book_id (s : LibState) (book_id : Nat) : Option CheckoutError :=
  match findBook s book_id with
  | none => some .validationBookMissing
  | some book =>
      if book.copies_available ≤ 0 then some .validationNoCopies else none

/-- Handler `CheckoutAPIView.post`, sequentially: serializer validation, the active
member check, the loan-limit check, then the atomic block that re-fetches the
book under `select_for_update`, re-checks availability, checks for an open
loan of the pair, and finally inserts the transaction row and decrements
`copies_available`.  Every failure exit returns the state unchanged. -/
def checkout (s : LibState) (user : User) (book_id now : Nat) :
    CheckoutResult × LibState :=
  match validate_book_id s book_id with
  | some e => (.error 400 e, s)
  | none =>
    if !user.is_active_member then
      (.error 403 .membershipInactive, s)
    else if MAX_ACTIVE_TRANSACTIONS ≤ activeCount s user.id then
      (.error 400 .loanLimitReached, s)
    else
      match findBook s book_id with
      | none => (.error 404 .bookMissing404, s)
      | some book =>
        if book.copies_available ≤ 0 then
          (.error 400 .noCopiesAvailable, s)
        else if s.transactions.any (isOpenFor user.id book_id) then
          (.error 400 .alreadyCheckedOut, s)
        else
          let t := newTransaction s.nextTid user.id book_id now
          (.created t,
           { s with
             books := s.books.map (fun b =>
               if b.id == book_id then
                 { b with copies_available := b.copies_available - 1 }
               else b)
             transactions := t :: s.transactions
             nextTid := s.nextTid + 1 })

/-- An outbound e-mail recorded by recipient user id:
the "Book available" mail of `ReturnAPIView.post` and the
"Overdue Book Reminder" mail of the management command. -/
inductive Notification
  | bookAvailable (recipient : Nat)
  | overdueReminder (recipient : Nat)
  deriving DecidableEq

/-- Outcome of `ReturnAPIView.post`: HTTP 200 with the updated transaction, or
HTTP 404 when no open transaction of this user has the given id. -/
inductive ReturnResult
  | ok (t : Transaction)
  | notFound404
  deriving DecidableEq

/-- Head of `Waitlist.objects.filter(book=book).order_by(created_at)`:
the first row holding the minimal `created_at`. -/
def earliestEntry : List Waitlist → Option Waitlist
  | [] => none
  | w :: ws =>
      match earliestEntry ws with
      | none => some w
      | some e => if e.created_at < w.created_at then some e else some w

/-- Handler `ReturnAPIView.post`: inside the atomic block, fetch the open
transaction of the caller by id (404 if absent), stamp `return_date`,
increment the `copies_available` of the book, then look at the waitlist of
the book ordered by `created_at` and, when non-empty, e-mail the user of the
first entry (`fail_silently=True`, so
the mail outcome cannot change anything).  The waitlist row itself is left in
place — `ReturnAPIView.post` contains no delete.  Result: outcome, successor
state, and the list of attempted notifications. -/
def returnBook (s : LibState) (user : User) (transaction_id now : Nat) :
    ReturnResult × LibState × List Notification :=
  match s.transactions.find? (fun t =>
      t.id == transaction_id && t.user == user.id && t.return_date.isNone) with
  | none => (.notFound404, s, [])
  | some t =>
    let t' := { t with return_date := some now }
    let notifs :=
      match earliestEntry (s.waitlists.filter (fun w => w.book == t.book)) with
      | some e => [Notification.bookAvailable e.user]
      | none => []
    (.ok t',
     { s with
       transactions := s.transactions.map (fun u =>
         if u.id == t.id then t' else u)
       books := s.books.map (fun b =>
         if b.id == t.book then
           { b with copies_available := b.copies_available + 1 }
         else b) },
     notifs)

/-- Outcome of `JoinWaitlistAPIView.post`.  A missing book is rejected by
`WaitlistCreateSerializer.validate_book_id` (HTTP 400) before
`get_object_or_404` could produce a 404. -/
inductive JoinWaitlistResult
  | bookMissing400
  | alreadyWaitlisted400
  | advisoryAvailable200
  | created201 (w : Waitlist)
  deriving DecidableEq

/-- Handler `JoinWaitlistAPIView.post`: serializer book-existence check, then the
already-enrolled check, then the availability advisory, and otherwise a
`Waitlist` insert stamped `created_at = now`. -/
def joinWaitlist (s : LibState) (user : User) (book_id now : Nat) :
    JoinWaitlistResult × LibState :=
  match findBook s book_id with
  | none => (.bookMissing400, s)
  | some book =>
    if s.waitlists.any (fun w => w.user == user.id && w.book == book.id) then
      (.alreadyWaitlisted400, s)
    else if 0 < book.copies_available then
      (.advisoryAvailable200, s)
    else
      let w : Waitlist :=
        { id := s.nextWid, user := user.id, book := book.id, created_at := now }
      (.created201 w,
       { s with waitlists := w :: s.waitlists, nextWid := s.nextWid + 1 })

/-- Handler `CancelWaitlistAPIView.delete`: `get_object_or_404(Waitlist, id=…,
user=request.user)` then `delete()`; `true` for HTTP 200, `false` for 404. -/
def cancelWaitlist (s : LibState) (user : User) (waitlist_id : Nat) :
    Bool × LibState :=
  if s.waitlists.any (fun w => w.id == waitlist_id && w.user == user.id) then
    (true,
     { s with waitlists :=
         s.waitlists.filter (fun w =>
           !(w.id == waitlist_id && w.user == user.id)) })
  else
    (false, s)

/-- The queryset of the overdue command:
`Transaction.objects.filter(return_date__isnull=True, due_date__lt=now)`
(a SQL NULL `due_date` never satisfies `due_date__lt`). -/
def overdueQuery (s : LibState) (now : Nat) : List Transaction :=
  s.transactions.filter (fun t =>
    t.return_date.isNone &&
      (match t.due_date with
       | some d => decide (d < now)
       | none => false))

/-- The mail loop of `Command.handle` in
`send_overdue_notifications.py`: one `send_mail(..., fail_silently=False)` per
enumerated transaction, in order.  `sendOk` tells whether a given `send_mail`
call succeeds; on the first failing call the exception propagates out of
`handle`, so the loop stops and later transactions get nothing.  Returns the
reminders actually sent and the transaction whose send raised, if any. -/
def sendOverdueLoop (sendOk : Transaction → Bool) :
    List Transaction → List Notification × Option Transaction
  | [] => ([], none)
  | t :: ts =>
      if sendOk t then
        let rest := sendOverdueLoop sendOk ts
        (Notification.overdueReminder t.user :: rest.1, rest.2)
      else
        ([], some t)

/-- Overdue command `Command.handle`: evaluate the overdue queryset at `now` and run the mail
loop.  The command performs no writes, so the state component it yields is the
input state itself — in particular no record of sent reminders is kept. -/
def sendOverdueNotificationsCmd (s : LibState) (now : Nat)
    (sendOk : Transaction → Bool) :
    List Notification × Option Transaction × LibState :=
  (sendOverdueLoop sendOk (overdueQuery s now) |>.1,
   sendOverdueLoop sendOk (overdueQuery s now) |>.2,
   s)

end LibraryApp
namespace LibraryApp

/-- Total `copies_available` held by rows of a given book id. -/
def stockOf (books : List Book) (bid : Nat) : Int :=
  (books.map (fun b => if b.id == bid then b.copies_available else 0)).sum

/-- Total stock (`stockOf`) over the book table of the state. -/
def bookStock (s : LibState) (bid : Nat) : Int := stockOf s.books bid

/-- Number of open loan rows of a given book. -/
def openLoans (s : LibState) (bid : Nat) : Nat :=
  (s.transactions.filter (fun t => t.book == bid && t.return_date.isNone)).length

/-- Number of open loan rows of a given (user, book) pair. -/
def openPairCount (s : LibState) (uid bid : Nat) : Nat :=
  (s.transactions.filter (isOpenFor uid bid)).length


/-- Database well-formedness: primary keys are unique, inserted keys are
fresh, loan rows reference existing book rows, and the `PositiveIntegerField`
constraint on `copies_available` holds. -/
structure WF (s : LibState) : Prop where
  booksNodup : (s.books.map Book.id).Nodup
  tidsNodup : (s.transactions.map Transaction.id).Nodup
  tidsBound : ∀ t ∈ s.transactions, t.id < s.nextTid
  bookRowExists : ∀ t ∈ s.transactions, t.book ∈ s.books.map Book.id
  copiesNonneg : ∀ b ∈ s.books, 0 ≤ b.copies_available

/-- An initial state: well-formed and with an empty loan ledger. -/
def Init (s : LibState) : Prop := WF s ∧ s.transactions = []

/-- One request handled by the application: a checkout, a return, a waitlist
join or a waitlist cancellation, at an arbitrary time by an arbitrary
authenticated user. -/
inductive Step : LibState → LibState → Prop
  | checkoutStep (s : LibState) (u : User) (bid now : Nat) :
      Step s (checkout s u bid now).2
  | returnStep (s : LibState) (u : User) (tid now : Nat) :
      Step s (returnBook s u tid now).2.1
  | joinStep (s : LibState) (u : User) (bid now : Nat) :
      Step s (joinWaitlist s u bid now).2
  | cancelStep (s : LibState) (u : User) (wid : Nat) :
      Step s (cancelWaitlist s u wid).2

/-- States reachable through sequences of handled requests. -/
def Reachable : LibState → LibState → Prop := Relation.ReflTransGen Step


/-- The conditional uniqueness constraint `unique_active_transaction`: at most
one open loan row per (user, book) pair. -/
def atMostOneOpen (s : LibState) : Prop :=
  ∀ uid bid, openPairCount s uid bid ≤ 1


/-- A registered active user, used in concrete scenarios. -/
def exUser : User := { id := 10, is_active_member := true }

/-- A second registered active user. -/
def exUser2 : User := { id := 20, is_active_member := true }

/-- A catalogued book with one available copy. -/
def exBook : Book := { id := 1, copies_available := 1 }

/-- A small initial database: one book, no loans, no waitlist rows. -/
def exState : LibState :=
  { books := [exBook], transactions := [], waitlists := [],
    nextTid := 1, nextWid := 1 }

/-- The database after `exUser` checks out the book at time 100. -/
def exCheckoutState : LibState := (checkout exState exUser 1 100).2

/-- A database holding one open loan (id 1, by user 10, of book 1) and one
waitlist row (user 20, book 1, joined at 3), with the book out of stock. -/
def c1State : LibState :=
  { books := [{ id := 1, copies_available := 0 }],
    transactions := [{ id := 1, user := 10, book := 1, checkout_date := 0,
                       return_date := none, due_date := some 5 }],
    waitlists := [{ id := 1, user := 20, book := 1, created_at := 3 }],
    nextTid := 2, nextWid := 2 }

/-- The closed transaction row produced by returning loan 1 of `c1State` at
time 50. -/
def c1Closed : Transaction :=
  { id := 1, user := 10, book := 1, checkout_date := 0,
    return_date := some 50, due_date := some 5 }

/-- The database after the return of loan 1 of `c1State` at time 50. -/
def c1After : LibState := (returnBook c1State exUser 1 50).2.1

/-- An open loan due at time 5. -/
def exLoanA : Transaction :=
  { id := 1, user := 10, book := 1, checkout_date := 0,
    return_date := none, due_date := some 5 }

/-- A second open loan due at time 6. -/
def exLoanB : Transaction :=
  { id := 2, user := 20, book := 1, checkout_date := 0,
    return_date := none, due_date := some 6 }

/-- A database with two overdue loans (relative to any time after 6). -/
def exOverdueState : LibState :=
  { books := [exBook], transactions := [exLoanA, exLoanB], waitlists := [],
    nextTid := 3, nextWid := 1 }


/-- Case analysis of `checkout`: either it fails and leaves the state alone,
or every guard passed and it produced exactly the insert-plus-decrement. -/
lemma checkout_spec (s : LibState) (u : User) (bid now : Nat) :
    (∃ c e, checkout s u bid now = (.error c e, s)) ∨
    (∃ book, findBook s bid = some book ∧ 0 < book.copies_available ∧
      u.is_active_member = true ∧ activeCount s u.id < MAX_ACTIVE_TRANSACTIONS ∧
      s.transactions.any (isOpenFor u.id bid) = false ∧
      checkout s u bid now =
        (.created (newTransaction s.nextTid u.id bid now),
         { s with
           books := s.books.map (fun b =>
             if b.id == bid then
               { b with copies_available := b.copies_available - 1 }
             else b)
           transactions := newTransaction s.nextTid u.id bid now :: s.transactions
           nextTid := s.nextTid + 1 })) := by
  unfold checkout validate_book_id
  cases hfb : findBook s bid with
  | none => exact Or.inl ⟨400, .validationBookMissing, rfl⟩
  | some book =>
    by_cases hc : book.copies_available ≤ 0
    · simp only [if_pos hc]
      exact Or.inl ⟨400, .validationNoCopies, rfl⟩
    · simp only [if_neg hc]
      by_cases hm : u.is_active_member
      · simp only [hm, Bool.not_true, Bool.false_eq_true, if_false]
        by_cases hl : MAX_ACTIVE_TRANSACTIONS ≤ activeCount s u.id
        · simp only [if_pos hl]
          exact Or.inl ⟨400, .loanLimitReached, rfl⟩
        · simp only [if_neg hl]
          by_cases ho : s.transactions.any (isOpenFor u.id bid)
          · simp only [if_neg hc, ho, if_true]
            exact Or.inl ⟨400, .alreadyCheckedOut, rfl⟩
          · simp only [if_neg hc, Bool.not_eq_true] at *
            simp only [ho, Bool.false_eq_true, if_false]
            exact Or.inr ⟨book, rfl, by omega, trivial, by omega, trivial, trivial⟩
      · simp only [Bool.not_eq_true] at hm
        simp only [hm, Bool.not_false, if_true]
        exact Or.inl ⟨403, .membershipInactive, rfl⟩

/-- A pointwise-inert update maps to the identity. -/
lemma map_if_eq_self {α : Type} (l : List α) (p : α → Bool) (g : α → α)
    (h : ∀ a ∈ l, p a = false) :
    l.map (fun a => if p a then g a else a) = l := by
  induction l with
  | nil => rfl
  | cons a l ih =>
      simp only [List.map_cons, h a (List.mem_cons_self a l), Bool.false_eq_true,
        if_false, List.cons.injEq, true_and]
      exact ih (fun x hx => h x (List.mem_cons_of_mem a hx))

lemma stockOf_map_update_ne (books : List Book) (bid bid' : Nat)
    (u : Book → Book) (hid : ∀ b, (u b).id = b.id) (hne : bid' ≠ bid) :
    stockOf (books.map (fun b => if b.id == bid then u b else b)) bid' =
      stockOf books bid' := by
  induction books with
  | nil => rfl
  | cons b l ih =>
      simp only [stockOf, List.map_cons, List.sum_cons] at ih ⊢
      rw [ih]
      congr 1
      by_cases hb : b.id = bid
      · simp [hb, hid b, Ne.symm hne]
      · simp [hb]

lemma stockOf_map_update_eq (books : List Book) (bid : Nat)
    (u : Book → Book) (hid : ∀ b, (u b).id = b.id)
    (hnd : (books.map Book.id).Nodup) (b0 : Book) (hmem : b0 ∈ books)
    (hb0 : b0.id = bid) :
    stockOf (books.map (fun b => if b.id == bid then u b else b)) bid =
      stockOf books bid + ((u b0).copies_available - b0.copies_available) := by
  induction books with
  | nil => cases hmem
  | cons b l ih =>
      simp only [List.map_cons, List.nodup_cons] at hnd
      rcases List.mem_cons.mp hmem with h0 | h0
      · subst h0
        have h1 : (b0.id == bid) = true := by simp [hb0]
        have hl : l.map (fun b => if b.id == bid then u b else b) = l := by
          refine map_if_eq_self l _ u (fun a ha => ?_)
          simp only [beq_eq_false_iff_ne, ne_eq]
          intro hcontra
          apply hnd.1
          rw [hb0, ← hcontra]
          exact List.mem_map_of_mem Book.id ha
        simp only [stockOf, List.map_cons, List.sum_cons, h1, if_true, hl,
          hid b0, h1]
        ring
      · have hbne : b.id ≠ bid := by
          intro hcontra
          apply hnd.1
          rw [hcontra, ← hb0]
          exact List.mem_map_of_mem Book.id h0
        have h1 : (b.id == bid) = false := by simp [hbne]
        simp only [stockOf, List.map_cons, List.sum_cons, h1, Bool.false_eq_true,
          if_false] at ih ⊢
        rw [ih hnd.2 h0]
        ring

lemma length_filter_map_update (l : List Transaction) (t t' : Transaction)
    (q : Transaction → Bool)
    (hnd : (l.map Transaction.id).Nodup) (hmem : t ∈ l) (hid : t'.id = t.id) :
    ((l.map (fun u => if u.id == t.id then t' else u)).filter q).length +
        (if q t then 1 else 0) =
      (l.filter q).length + (if q t' then 1 else 0) := by
  induction l with
  | nil => cases hmem
  | cons a l ih =>
      simp only [List.map_cons, List.nodup_cons] at hnd
      by_cases ha : a.id = t.id
      · have hat : t = a := by
          rcases List.mem_cons.mp hmem with h0 | h0
          · exact h0
          · exfalso
            apply hnd.1
            rw [ha]
            exact List.mem_map_of_mem Transaction.id h0
        subst hat
        have hl : l.map (fun u => if u.id == t.id then t' else u) = l := by
          refine map_if_eq_self l _ (fun _ => t') (fun x hx => ?_)
          simp only [beq_eq_false_iff_ne, ne_eq]
          intro hcontra
          apply hnd.1
          rw [← hcontra]
          exact List.mem_map_of_mem Transaction.id hx
        have h1 : (t.id == t.id) = true := by simp
        simp only [List.map_cons, h1, if_true, hl, List.filter_cons]
        by_cases hq : q t' <;> by_cases hqt : q t <;>
          simp only [hq, hqt, if_true, Bool.false_eq_true, if_false,
            List.length_cons] <;> omega
      · have hmem' : t ∈ l := by
          rcases List.mem_cons.mp hmem with h0 | h0
          · exact absurd (h0 ▸ rfl) ha
          · exact h0
        have h1 : (a.id == t.id) = false := by simp [ha]
        have ihl := ih hnd.2 hmem'
        simp only [List.map_cons, h1, Bool.false_eq_true, if_false,
          List.filter_cons]
        by_cases hqa : q a <;>
          simp only [hqa, if_true, Bool.false_eq_true, if_false,
            List.length_cons] <;> omega

lemma map_id_update_trans (l : List Transaction) (tid : Nat) (t' : Transaction)
    (hid : t'.id = tid) :
    (l.map (fun u => if u.id == tid then t' else u)).map Transaction.id =
      l.map Transaction.id := by
  induction l with
  | nil => rfl
  | cons a l ih =>
      by_cases ha : a.id = tid
      · have h1 : (a.id == tid) = true := by simp [ha]
        simp only [List.map_cons, h1, if_true, ih]
        rw [hid, ha]
      · have h1 : (a.id == tid) = false := by simp [ha]
        simp only [List.map_cons, h1, Bool.false_eq_true, if_false, ih]

lemma map_id_update_book (l : List Book) (bid : Nat) (u : Book → Book)
    (hid : ∀ b, (u b).id = b.id) :
    (l.map (fun b => if b.id == bid then u b else b)).map Book.id =
      l.map Book.id := by
  induction l with
  | nil => rfl
  | cons a l ih =>
      by_cases ha : a.id = bid
      · have h1 : (a.id == bid) = true := by simp [ha]
        simp only [List.map_cons, h1, if_true, ih]
        rw [hid a]
      · have h1 : (a.id == bid) = false := by simp [ha]
        simp only [List.map_cons, h1, Bool.false_eq_true, if_false, ih]

lemma find_book_by_id_unique (books : List Book) (bid : Nat) (book b : Book)
    (hnd : (books.map Book.id).Nodup)
    (hfind : books.find? (fun x => x.id == bid) = some book)
    (hmem : b ∈ books) (hid : b.id = bid) : b = book := by
  induction books with
  | nil => cases hmem
  | cons a l ih =>
      simp only [List.map_cons, List.nodup_cons] at hnd
      by_cases hcond : a.id = bid
      · have h1 : (a.id == bid) = true := by simp [hcond]
        rw [@List.find?_cons_of_pos _ (fun x => x.id == bid) a l h1] at hfind
        have hab : a = book := by injection hfind
        rcases List.mem_cons.mp hmem with h0 | h0
        · rw [h0, hab]
        · exfalso
          apply hnd.1
          rw [hcond, ← hid]
          exact List.mem_map_of_mem Book.id h0
      · have h1 : (a.id == bid) = false := by simp [hcond]
        rw [@List.find?_cons_of_neg _ (fun x => x.id == bid) a l (by simp [hcond])] at hfind
        rcases List.mem_cons.mp hmem with h0 | h0
        · exact absurd (h0 ▸ hid) hcond
        · exact ih hnd.2 hfind h0

lemma findBook_mem_id (s : LibState) (bid : Nat) (book : Book)
    (hfind : findBook s bid = some book) :
    book ∈ s.books ∧ book.id = bid := by
  refine ⟨List.mem_of_find?_eq_some hfind, ?_⟩
  have := List.find?_some hfind
  simpa using this

/-- Case analysis of `returnBook`: 404 leaving the state alone, or an open
transaction of the caller was found, closed, and the book incremented. -/
lemma returnBook_spec (s : LibState) (u : User) (tid now : Nat) :
    (s.transactions.find? (fun x =>
        x.id == tid && x.user == u.id && x.return_date.isNone) = none ∧
      returnBook s u tid now = (.notFound404, s, [])) ∨
    (∃ t, s.transactions.find? (fun x =>
        x.id == tid && x.user == u.id && x.return_date.isNone) = some t ∧
      t ∈ s.transactions ∧ t.id = tid ∧ t.user = u.id ∧ t.return_date = none ∧
      returnBook s u tid now =
        (.ok { t with return_date := some now },
         { s with
           transactions := s.transactions.map (fun x =>
             if x.id == t.id then { t with return_date := some now } else x)
           books := s.books.map (fun b =>
             if b.id == t.book then
               { b with copies_available := b.copies_available + 1 }
             else b) },
         match earliestEntry (s.waitlists.filter (fun w => w.book == t.book)) with
         | some e => [Notification.bookAvailable e.user]
         | none => [])) := by
  unfold returnBook
  cases hf : s.transactions.find? (fun x =>
      x.id == tid && x.user == u.id && x.return_date.isNone) with
  | none => exact Or.inl ⟨rfl, rfl⟩
  | some t =>
      have hmem := List.mem_of_find?_eq_some hf
      have hpred := List.find?_some hf
      simp only [Bool.and_eq_true, beq_iff_eq, Option.isNone_iff_eq_none] at hpred
      exact Or.inr ⟨t, rfl, hmem, hpred.1.1, hpred.1.2, hpred.2, rfl⟩

/-- The handler `joinWaitlist` never touches books, transactions or the transaction key. -/
lemma joinWaitlist_fields (s : LibState) (u : User) (bid now : Nat) :
    (joinWaitlist s u bid now).2.books = s.books ∧
    (joinWaitlist s u bid now).2.transactions = s.transactions ∧
    (joinWaitlist s u bid now).2.nextTid = s.nextTid := by
  unfold joinWaitlist
  cases findBook s bid with
  | none => exact ⟨rfl, rfl, rfl⟩
  | some book =>
      dsimp only
      split
      · exact ⟨rfl, rfl, rfl⟩
      · split
        · exact ⟨rfl, rfl, rfl⟩
        · exact ⟨rfl, rfl, rfl⟩

/-- The handler `cancelWaitlist` never touches books, transactions or the transaction key. -/
lemma cancelWaitlist_fields (s : LibState) (u : User) (wid : Nat) :
    (cancelWaitlist s u wid).2.books = s.books ∧
    (cancelWaitlist s u wid).2.transactions = s.transactions ∧
    (cancelWaitlist s u wid).2.nextTid = s.nextTid := by
  unfold cancelWaitlist
  split
  · exact ⟨rfl, rfl, rfl⟩
  · exact ⟨rfl, rfl, rfl⟩

lemma checkout_preserves (s : LibState) (u : User) (bid now : Nat)
    (hWF : WF s) :
    WF (checkout s u bid now).2 ∧
    ∀ b', bookStock (checkout s u bid now).2 b' +
        (openLoans (checkout s u bid now).2 b' : Int) =
      bookStock s b' + (openLoans s b' : Int) := by
  rcases checkout_spec s u bid now with ⟨c, e, h⟩ | ⟨book, hfb, hpos, _, _, _, h⟩
  · rw [h]
    exact ⟨hWF, fun _ => rfl⟩
  · rw [h]
    dsimp only
    obtain ⟨hbmem, hbid⟩ := findBook_mem_id s bid book hfb
    constructor
    · constructor
      · rw [map_id_update_book s.books bid
          (fun b => { b with copies_available := b.copies_available - 1 })
          (fun b => rfl)]
        exact hWF.booksNodup
      · simp only [List.map_cons, List.nodup_cons]
        refine ⟨?_, hWF.tidsNodup⟩
        intro hmem
        rcases List.mem_map.mp hmem with ⟨x, hx, hxid⟩
        exact absurd hxid (Nat.ne_of_gt (hWF.tidsBound x hx)).symm
      · intro t ht
        rcases List.mem_cons.mp ht with h0 | h0
        · rw [h0]
          exact Nat.lt_succ_self _
        · exact Nat.lt_succ_of_lt (hWF.tidsBound t h0)
      · intro t ht
        rw [map_id_update_book s.books bid
          (fun b => { b with copies_available := b.copies_available - 1 })
          (fun b => rfl)]
        rcases List.mem_cons.mp ht with h0 | h0
        · rw [h0]
          show bid ∈ _
          rw [← hbid]
          exact List.mem_map_of_mem Book.id hbmem
        · exact hWF.bookRowExists t h0
      · intro b' hb'
        rcases List.mem_map.mp hb' with ⟨b, hb, hbeq⟩
        by_cases hcase : b.id = bid
        · have hbb : b = book :=
            find_book_by_id_unique s.books bid book b hWF.booksNodup hfb hb hcase
          have h1 : (b.id == bid) = true := by simp [hcase]
          rw [← hbeq, if_pos h1]
          rw [hbb]
          show (0 : Int) ≤ book.copies_available - 1
          omega
        · have h1 : ¬((b.id == bid) = true) := by simp [hcase]
          rw [← hbeq, if_neg h1]
          exact hWF.copiesNonneg b hb
    · intro b'
      simp only [bookStock, openLoans]
      by_cases hcase : b' = bid
      · subst hcase
        rw [stockOf_map_update_eq s.books b'
          (fun b => { b with copies_available := b.copies_available - 1 })
          (fun b => rfl) hWF.booksNodup book hbmem hbid]
        have hq : ((newTransaction s.nextTid u.id b' now).book == b' &&
            (newTransaction s.nextTid u.id b' now).return_date.isNone) = true := by
          simp [newTransaction]
        simp only [List.filter_cons, hq, if_true, List.length_cons]
        push_cast
        ring
      · rw [stockOf_map_update_ne s.books bid b'
          (fun b => { b with copies_available := b.copies_available - 1 })
          (fun b => rfl) hcase]
        have hq : ((newTransaction s.nextTid u.id bid now).book == b' &&
            (newTransaction s.nextTid u.id bid now).return_date.isNone) = false := by
          simp [newTransaction, Ne.symm hcase]
        simp only [List.filter_cons, hq, Bool.false_eq_true, if_false]

lemma returnBook_preserves (s : LibState) (u : User) (tid now : Nat)
    (hWF : WF s) :
    WF (returnBook s u tid now).2.1 ∧
    ∀ b', bookStock (returnBook s u tid now).2.1 b' +
        (openLoans (returnBook s u tid now).2.1 b' : Int) =
      bookStock s b' + (openLoans s b' : Int) := by
  rcases returnBook_spec s u tid now with ⟨hfn, h⟩ | ⟨t, hf, hmem, htid, huser, hopen, h⟩
  · rw [h]
    exact ⟨hWF, fun _ => rfl⟩
  · rw [h]
    dsimp only
    have hids := map_id_update_trans s.transactions t.id
      { t with return_date := some now } rfl
    constructor
    · constructor
      · rw [map_id_update_book s.books t.book
          (fun b => { b with copies_available := b.copies_available + 1 })
          (fun b => rfl)]
        exact hWF.booksNodup
      · rw [hids]
        exact hWF.tidsNodup
      · intro x hx
        have hxid : x.id ∈ (s.transactions.map (fun y =>
            if y.id == t.id then { t with return_date := some now } else y)).map
              Transaction.id := List.mem_map_of_mem Transaction.id hx
        rw [hids] at hxid
        rcases List.mem_map.mp hxid with ⟨y, hy, hxy⟩
        rw [← hxy]
        exact hWF.tidsBound y hy
      · intro x hx
        rw [map_id_update_book s.books t.book
          (fun b => { b with copies_available := b.copies_available + 1 })
          (fun b => rfl)]
        rcases List.mem_map.mp hx with ⟨y, hy, hxy⟩
        by_cases hc : y.id = t.id
        · have h1 : (y.id == t.id) = true := by simp [hc]
          rw [← hxy, if_pos h1]
          exact hWF.bookRowExists t hmem
        · have h1 : ¬((y.id == t.id) = true) := by simp [hc]
          rw [← hxy, if_neg h1]
          exact hWF.bookRowExists y hy
      · intro b' hb'
        rcases List.mem_map.mp hb' with ⟨b, hb, hbeq⟩
        by_cases hc : b.id = t.book
        · have h1 : (b.id == t.book) = true := by simp [hc]
          rw [← hbeq, if_pos h1]
          show (0 : Int) ≤ b.copies_available + 1
          have := hWF.copiesNonneg b hb
          omega
        · have h1 : ¬((b.id == t.book) = true) := by simp [hc]
          rw [← hbeq, if_neg h1]
          exact hWF.copiesNonneg b hb
    · intro b'
      simp only [bookStock, openLoans]
      by_cases hc : b' = t.book
      · subst hc
        rcases List.mem_map.mp (hWF.bookRowExists t hmem) with ⟨b0, hb0, hb0id⟩
        rw [stockOf_map_update_eq s.books t.book
          (fun b => { b with copies_available := b.copies_available + 1 })
          (fun b => rfl) hWF.booksNodup b0 hb0 hb0id]
        have hlen := length_filter_map_update s.transactions t
          { t with return_date := some now }
          (fun x => x.book == t.book && x.return_date.isNone)
          hWF.tidsNodup hmem rfl
        have hqt : (t.book == t.book && t.return_date.isNone) = true := by
          simp [hopen]
        have hqt' : (t.book == t.book &&
            (Option.some now).isNone) = false := by simp
        simp only [hqt, hqt', if_true, Bool.false_eq_true, if_false] at hlen
        have hcop : ({ b0 with copies_available := b0.copies_available + 1 } :
            Book).copies_available = b0.copies_available + 1 := rfl
        rw [hcop]
        push_cast
        omega
      · rw [stockOf_map_update_ne s.books t.book b'
          (fun b => { b with copies_available := b.copies_available + 1 })
          (fun b => rfl) hc]
        have hlen := length_filter_map_update s.transactions t
          { t with return_date := some now }
          (fun x => x.book == b' && x.return_date.isNone)
          hWF.tidsNodup hmem rfl
        have hqt : (t.book == b' && t.return_date.isNone) = false := by
          simp [Ne.symm hc]
        have hqt' : (t.book == b' &&
            (Option.some now).isNone) = false := by simp
        simp only [hqt, hqt', Bool.false_eq_true, if_false] at hlen
        push_cast
        omega

lemma fields_preserves (s s' : LibState)
    (hb : s'.books = s.books) (ht : s'.transactions = s.transactions)
    (hn : s'.nextTid = s.nextTid) (hWF : WF s) :
    WF s' ∧
    ∀ b', bookStock s' b' + (openLoans s' b' : Int) =
      bookStock s b' + (openLoans s b' : Int) := by
  constructor
  · constructor
    · rw [hb]; exact hWF.booksNodup
    · rw [ht]; exact hWF.tidsNodup
    · rw [ht, hn]; exact hWF.tidsBound
    · rw [ht, hb]; exact hWF.bookRowExists
    · rw [hb]; exact hWF.copiesNonneg
  · intro b'
    simp only [bookStock, openLoans, hb, ht]

lemma step_preserves (s s' : LibState) (hWF : WF s) (hst : Step s s') :
    WF s' ∧
    ∀ b', bookStock s' b' + (openLoans s' b' : Int) =
      bookStock s b' + (openLoans s b' : Int) := by
  cases hst with
  | checkoutStep u bid now => exact checkout_preserves s u bid now hWF
  | returnStep u tid now => exact returnBook_preserves s u tid now hWF
  | joinStep u bid now =>
      obtain ⟨h1, h2, h3⟩ := joinWaitlist_fields s u bid now
      exact fields_preserves s _ h1 h2 h3 hWF
  | cancelStep u wid =>
      obtain ⟨h1, h2, h3⟩ := cancelWaitlist_fields s u wid
      exact fields_preserves s _ h1 h2 h3 hWF

lemma reachable_WF_conserved (s₀ s : LibState) (h₀ : WF s₀)
    (hr : Reachable s₀ s) :
    WF s ∧
    ∀ b', bookStock s b' + (openLoans s b' : Int) =
      bookStock s₀ b' + (openLoans s₀ b' : Int) := by
  induction hr with
  | refl => exact ⟨h₀, fun _ => rfl⟩
  | tail hr hstep ih =>
      obtain ⟨hWF, hcons⟩ := ih
      obtain ⟨hWF', hcons'⟩ := step_preserves _ _ hWF hstep
      exact ⟨hWF', fun b' => (hcons' b').trans (hcons b')⟩

lemma checkout_atMostOne (s : LibState) (u : User) (bid now : Nat)
    (h1 : atMostOneOpen s) : atMostOneOpen (checkout s u bid now).2 := by
  rcases checkout_spec s u bid now with ⟨c, e, h⟩ | ⟨book, hfb, hpos, _, _, hopen, h⟩
  · rw [h]
    exact h1
  · rw [h]
    intro uid bid'
    dsimp only [openPairCount]
    by_cases hq : isOpenFor uid bid' (newTransaction s.nextTid u.id bid now) = true
    · have hub : u.id = uid ∧ bid = bid' := by
        simpa [isOpenFor, newTransaction] using hq
      obtain ⟨h2, h3⟩ := hub
      subst h2
      subst h3
      have hnil : s.transactions.filter (isOpenFor u.id bid) = [] :=
        List.filter_eq_nil_iff.mpr (List.any_eq_false.mp hopen)
      simp only [List.filter_cons, hq, if_true, List.length_cons]
      have : (s.transactions.filter (isOpenFor u.id bid)).length = 0 := by
        rw [hnil]
        rfl
      omega
    · simp only [List.filter_cons, hq, if_false]
      exact h1 uid bid'

lemma returnBook_atMostOne (s : LibState) (u : User) (tid now : Nat)
    (hWF : WF s) (h1 : atMostOneOpen s) :
    atMostOneOpen (returnBook s u tid now).2.1 := by
  rcases returnBook_spec s u tid now with ⟨hfn, h⟩ | ⟨t, hf, hmem, htid, huser, hopen, h⟩
  · rw [h]
    exact h1
  · rw [h]
    intro uid bid'
    dsimp only [openPairCount]
    have hlen := length_filter_map_update s.transactions t
      { t with return_date := some now } (isOpenFor uid bid')
      hWF.tidsNodup hmem rfl
    have hqt' : isOpenFor uid bid' { t with return_date := some now } = false := by
      simp [isOpenFor]
    simp only [hqt', Bool.false_eq_true, if_false] at hlen
    have := h1 uid bid'
    dsimp only [openPairCount] at this
    by_cases hq : isOpenFor uid bid' t = true <;>
      simp only [hq, if_true, Bool.false_eq_true, if_false] at hlen <;> omega

lemma step_atMostOne (s s' : LibState) (hWF : WF s) (h1 : atMostOneOpen s)
    (hst : Step s s') : atMostOneOpen s' := by
  cases hst with
  | checkoutStep u bid now => exact checkout_atMostOne s u bid now h1
  | returnStep u tid now => exact returnBook_atMostOne s u tid now hWF h1
  | joinStep u bid now =>
      intro uid bid'
      dsimp only [openPairCount]
      rw [(joinWaitlist_fields s u bid now).2.1]
      exact h1 uid bid'
  | cancelStep u wid =>
      intro uid bid'
      dsimp only [openPairCount]
      rw [(cancelWaitlist_fields s u wid).2.1]
      exact h1 uid bid'

lemma reachable_atMostOne (s₀ s : LibState) (h₀ : WF s₀)
    (hinit : s₀.transactions = []) (hr : Reachable s₀ s) :
    atMostOneOpen s := by
  induction hr with
  | refl =>
      intro uid bid
      simp [openPairCount, hinit]
  | tail hr hstep ih =>
      exact step_atMostOne _ _ (reachable_WF_conserved _ _ h₀ hr).1 ih hstep

lemma earliestEntry_none_iff (l : List Waitlist) :
    earliestEntry l = none ↔ l = [] := by
  cases l with
  | nil => simp [earliestEntry]
  | cons w ws =>
      simp only [earliestEntry]
      cases earliestEntry ws with
      | none => simp
      | some e =>
          by_cases hc : e.created_at < w.created_at <;> simp [hc]

lemma earliestEntry_spec (l : List Waitlist) (e : Waitlist)
    (h : earliestEntry l = some e) :
    e ∈ l ∧ ∀ x ∈ l, e.created_at ≤ x.created_at := by
  induction l generalizing e with
  | nil => cases h
  | cons w ws ih =>
      simp only [earliestEntry] at h
      cases hws : earliestEntry ws with
      | none =>
          simp only [hws] at h
          have hnil : ws = [] := (earliestEntry_none_iff ws).mp hws
          subst hnil
          injection h with h
          subst h
          exact ⟨List.mem_cons_self w [], by simp⟩
      | some e0 =>
          simp only [hws] at h
          obtain ⟨hmem0, hmin0⟩ := ih e0 hws
          by_cases hc : e0.created_at < w.created_at
          · rw [if_pos hc] at h
            injection h with h
            subst h
            refine ⟨List.mem_cons_of_mem w hmem0, fun x hx => ?_⟩
            rcases List.mem_cons.mp hx with h0 | h0
            · subst h0
              omega
            · exact hmin0 x h0
          · rw [if_neg hc] at h
            injection h with h
            subst h
            refine ⟨List.mem_cons_self w ws, fun x hx => ?_⟩
            rcases List.mem_cons.mp hx with h0 | h0
            · subst h0
              exact Nat.le_refl _
            · exact Nat.le_trans (Nat.le_of_not_lt hc) (hmin0 x h0)

lemma dec_then_inc (books : List Book) (bid : Nat) :
    ((books.map (fun b => if b.id == bid then
        { b with copies_available := b.copies_available - 1 } else b)).map
      (fun b => if b.id == bid then
        { b with copies_available := b.copies_available + 1 } else b)) = books := by
  rw [List.map_map]
  have h : ∀ b ∈ books,
      ((fun b => if b.id == bid then
          { b with copies_available := b.copies_available + 1 } else b) ∘
        (fun b => if b.id == bid then
          { b with copies_available := b.copies_available - 1 } else b)) b = b := by
    intro b _
    by_cases hc : b.id = bid
    · have h1 : (b.id == bid) = true := by simp [hc]
      simp only [Function.comp, if_pos h1, h1, if_true]
      have : b.copies_available - 1 + 1 = b.copies_available := by ring
      rw [this]
    · have h1 : ¬((b.id == bid) = true) := by simp [hc]
      simp only [Function.comp, if_neg h1]
  rw [List.map_congr_left h, List.map_id']

lemma findBook_map_update (books : List Book) (bid : Nat) (u : Book → Book)
    (hid : ∀ b, (u b).id = b.id) :
    (books.map (fun b => if b.id == bid then u b else b)).find?
        (fun b => b.id == bid) =
      (books.find? (fun b => b.id == bid)).map u := by
  induction books with
  | nil => rfl
  | cons a l ih =>
      by_cases hc : a.id = bid
      · have h1 : (a.id == bid) = true := by simp [hc]
        have h2 : ((u a).id == bid) = true := by simp [hid a, hc]
        simp only [List.map_cons, if_pos h1]
        rw [@List.find?_cons_of_pos _ (fun b => b.id == bid) (u a) _ h2,
          @List.find?_cons_of_pos _ (fun b => b.id == bid) a l h1]
        rfl
      · have h1 : ¬((a.id == bid) = true) := by simp [hc]
        simp only [List.map_cons, if_neg h1]
        rw [@List.find?_cons_of_neg _ (fun b => b.id == bid) a _ h1,
          @List.find?_cons_of_neg _ (fun b => b.id == bid) a l h1]
        exact ih

lemma sendOverdueLoop_all_true (l : List Transaction) :
    sendOverdueLoop (fun _ => true) l =
      (l.map (fun t => Notification.overdueReminder t.user), none) := by
  induction l with
  | nil => rfl
  | cons t ts ih => simp [sendOverdueLoop, ih]

lemma sendOverdueLoop_split (sendOk : Transaction → Bool)
    (pre post : List Transaction) (tf : Transaction)
    (hpre : ∀ t ∈ pre, sendOk t = true) (hf : sendOk tf = false) :
    sendOverdueLoop sendOk (pre ++ tf :: post) =
      (pre.map (fun t => Notification.overdueReminder t.user), some tf) := by
  induction pre with
  | nil => simp [sendOverdueLoop, hf]
  | cons t ts ih =>
      have ht : sendOk t = true := hpre t (List.mem_cons_self t ts)
      have ih' := ih (fun x hx => hpre x (List.mem_cons_of_mem t hx))
      simp [sendOverdueLoop, ht, ih']

/-- C2: every failing `CheckoutAPIView.post` — serializer rejection (missing
book / no copies), inactive membership, loan limit, in-atomic missing book,
no copies, or already-borrowed — creates no `Transaction` row and leaves the
whole database state, in particular every `Book.copies_available`, exactly as
it was. -/
theorem C2_checkout_failure_leaves_state_unchanged
    (s : LibState) (u : User) (book_id now c : Nat) (e : CheckoutError)
    (h : (checkout s u book_id now).1 = .error c e) :
    (checkout s u book_id now).2 = s := by
  rcases checkout_spec s u book_id now with ⟨c', e', hh⟩ | ⟨book, _, _, _, _, _, hh⟩
  · rw [hh]
  · rw [hh] at h
    simp at h

/-- Witness for C2: checking out a nonexistent book id fails with the
serializer 400 and the state is untouched. -/
theorem C2_witness :
    (checkout exState exUser2 99 0).1 =
      .error 400 .validationBookMissing ∧
    (checkout exState exUser2 99 0).2 = exState :=
  ⟨by decide,
   C2_checkout_failure_leaves_state_unchanged exState exUser2 99 0 400
     .validationBookMissing (by decide)⟩

/-- C6: every successful `CheckoutAPIView.post` answers HTTP 201 with the
created transaction, whose due timestamp is its checkout timestamp plus 14
days; exactly one transaction row is inserted (open, for this user and book)
and the `copies_available` of the target book drops by exactly 1. -/
theorem C6_checkout_success_creates_loan
    (s : LibState) (u : User) (book_id now : Nat) (t : Transaction)
    (s' : LibState) (h : checkout s u book_id now = (.created t, s')) :
    (CheckoutResult.created t).httpStatus = 201 ∧
    t.checkout_date = now ∧
    t.due_date = some (t.checkout_date + fourteenDays) ∧
    t.return_date = none ∧
    t.user = u.id ∧
    t.book = book_id ∧
    s'.transactions = t :: s.transactions ∧
    (∃ b, findBook s book_id = some b ∧
      findBook s' book_id =
        some { b with copies_available := b.copies_available - 1 }) := by
  rcases checkout_spec s u book_id now with ⟨c', e', hh⟩ | ⟨book, hfb, _, _, _, _, hh⟩
  · rw [hh] at h
    simp at h
  · have heq := hh.symm.trans h
    injection heq with h1 h2
    injection h1 with h1
    subst h1
    subst h2
    refine ⟨rfl, rfl, rfl, rfl, rfl, rfl, rfl, book, hfb, ?_⟩
    show (s.books.map (fun b => if b.id == book_id then
        { b with copies_available := b.copies_available - 1 } else b)).find?
      (fun b => b.id == book_id) = _
    rw [findBook_map_update s.books book_id
      (fun b => { b with copies_available := b.copies_available - 1 })
      (fun b => rfl)]
    rw [show s.books.find? (fun b => b.id == book_id) = some book from hfb]
    rfl

/-- Witness for C6: the concrete checkout of `exBook` by `exUser` at time
100. -/
theorem C6_witness :
    checkout exState exUser 1 100 =
      (.created (newTransaction 1 10 1 100), exCheckoutState) ∧
    ((CheckoutResult.created (newTransaction 1 10 1 100)).httpStatus = 201 ∧
     (newTransaction 1 10 1 100).checkout_date = 100 ∧
     (newTransaction 1 10 1 100).due_date =
       some ((newTransaction 1 10 1 100).checkout_date + fourteenDays) ∧
     (newTransaction 1 10 1 100).return_date = none ∧
     (newTransaction 1 10 1 100).user = exUser.id ∧
     (newTransaction 1 10 1 100).book = 1 ∧
     exCheckoutState.transactions =
       newTransaction 1 10 1 100 :: exState.transactions ∧
     (∃ b, findBook exState 1 = some b ∧
       findBook exCheckoutState 1 =
         some { b with copies_available := b.copies_available - 1 })) :=
  ⟨by decide,
   C6_checkout_success_creates_loan exState exUser 1 100
     (newTransaction 1 10 1 100) exCheckoutState (by decide)⟩

/-- C7 (counterexample): with no book of id 99, `CheckoutAPIView.post`
answers HTTP 400 — the serializer `validate_book_id` check rejects the
request before the 404 branch of the view can run — refuting the claimed
404. -/
theorem C7_counterexample :
    findBook exState 99 = none ∧
    (checkout exState exUser 99 0).1.httpStatus = 400 ∧
    ¬((checkout exState exUser 99 0).1.httpStatus = 404) ∧
    (checkout exState exUser 99 0).2 = exState := by decide

/-- C7 (amended): a checkout of a nonexistent book id fails in
`TransactionCreateSerializer.validate_book_id`, surfacing as HTTP 400 with
the book-missing kind — not 404 — and changes no state.  (The in-view
404 branch is unreachable in a sequential run because the serializer has
already checked existence.) -/
theorem C7_missing_book_checkout_rejected_400
    (s : LibState) (u : User) (book_id now : Nat)
    (h : findBook s book_id = none) :
    checkout s u book_id now = (.error 400 .validationBookMissing, s) ∧
    (CheckoutResult.error 400 .validationBookMissing).httpStatus = 400 := by
  constructor
  · unfold checkout validate_book_id
    rw [h]
  · rfl

/-- Witness for the amended C7 theorem: book id 99 does not exist in
`exState`. -/
theorem C7_witness :
    findBook exState 99 = none ∧
    (checkout exState exUser 99 7 = (.error 400 .validationBookMissing, exState) ∧
     (CheckoutResult.error 400 .validationBookMissing).httpStatus = 400) :=
  ⟨by decide,
   C7_missing_book_checkout_rejected_400 exState exUser 99 7 (by decide)⟩

/-- C8: `JoinWaitlistAPIView.post` on an existing book is a three-way split,
checked in this order: an existing (user, book) waitlist row gives the
already-waitlisted 400, regardless of availability; otherwise a positive
`copies_available` gives the 200 advisory with no row created; otherwise
exactly one `Waitlist` row stamped `created_at = now` is inserted and
returned with 201. -/
theorem C8_joinWaitlist_three_way_split
    (s : LibState) (u : User) (book_id now : Nat) (book : Book)
    (h : findBook s book_id = some book) :
    (s.waitlists.any (fun w => w.user == u.id && w.book == book.id) = true →
      joinWaitlist s u book_id now = (.alreadyWaitlisted400, s)) ∧
    (s.waitlists.any (fun w => w.user == u.id && w.book == book.id) = false →
      0 < book.copies_available →
      joinWaitlist s u book_id now = (.advisoryAvailable200, s)) ∧
    (s.waitlists.any (fun w => w.user == u.id && w.book == book.id) = false →
      book.copies_available ≤ 0 →
      joinWaitlist s u book_id now =
        (.created201 { id := s.nextWid, user := u.id, book := book.id,
                       created_at := now },
         { s with
           waitlists := { id := s.nextWid, user := u.id, book := book.id,
                          created_at := now } :: s.waitlists
           nextWid := s.nextWid + 1 })) := by
  refine ⟨fun ha => ?_, fun ha hc => ?_, fun ha hc => ?_⟩
  · simp only [joinWaitlist, h]
    rw [if_pos ha]
  · simp only [joinWaitlist, h]
    rw [if_neg (by simp [ha]), if_pos hc]
  · simp only [joinWaitlist, h]
    rw [if_neg (by simp [ha]), if_neg (by omega)]

/-- Witness for C8: `exBook` exists in `exState`; with two copies available
the advisory branch answers, and with an out-of-stock book the insert
happens (third branch exercised through the generic statement). -/
theorem C8_witness :
    findBook exState 1 = some exBook ∧
    ((exState.waitlists.any (fun w =>
        w.user == exUser.id && w.book == exBook.id) = true →
      joinWaitlist exState exUser 1 42 = (.alreadyWaitlisted400, exState)) ∧
     (exState.waitlists.any (fun w =>
        w.user == exUser.id && w.book == exBook.id) = false →
      0 < exBook.copies_available →
      joinWaitlist exState exUser 1 42 = (.advisoryAvailable200, exState)) ∧
     (exState.waitlists.any (fun w =>
        w.user == exUser.id && w.book == exBook.id) = false →
      exBook.copies_available ≤ 0 →
      joinWaitlist exState exUser 1 42 =
        (.created201 { id := exState.nextWid, user := exUser.id,
                       book := exBook.id, created_at := 42 },
         { exState with
           waitlists := { id := exState.nextWid, user := exUser.id,
                          book := exBook.id, created_at := 42 } ::
             exState.waitlists
           nextWid := exState.nextWid + 1 }))) :=
  ⟨by decide,
   C8_joinWaitlist_three_way_split exState exUser 1 42 exBook (by decide)⟩

/-- C1 (counterexample): in `c1State` — book out of stock, one open loan,
one waitlist row — the return succeeds, increments the stock and e-mails the
waitlisted user, but the waitlist row is NOT removed: `ReturnAPIView.post`
contains no delete, so the row survives the promotion, refuting the claimed
removal. -/
theorem C1_counterexample :
    (returnBook c1State exUser 1 50).1 = .ok c1Closed ∧
    (returnBook c1State exUser 1 50).2.2 = [Notification.bookAvailable 20] ∧
    (returnBook c1State exUser 1 50).2.1.waitlists = c1State.waitlists ∧
    c1State.waitlists ≠ [] := by decide

/-- C1 (amended): every successful `ReturnAPIView.post` leaves the waitlist
table exactly as it was; if the waitlist of the returned book is empty no
notification is attempted, and if it is non-empty exactly one availability
notification goes to the member of an earliest-joined entry for that book —
which stays enrolled. -/
theorem C1_return_notifies_earliest_entry_without_removing_it
    (s : LibState) (u : User) (transaction_id now : Nat) (t' : Transaction)
    (s' : LibState) (notifs : List Notification)
    (h : returnBook s u transaction_id now = (.ok t', s', notifs)) :
    s'.waitlists = s.waitlists ∧
    ∃ t, t ∈ s.transactions ∧ t.id = transaction_id ∧ t.return_date = none ∧
      (s.waitlists.filter (fun w => w.book == t.book) = [] → notifs = []) ∧
      (s.waitlists.filter (fun w => w.book == t.book) ≠ [] →
        ∃ e, e ∈ s.waitlists.filter (fun w => w.book == t.book) ∧
          (∀ x ∈ s.waitlists.filter (fun w => w.book == t.book),
            e.created_at ≤ x.created_at) ∧
          notifs = [Notification.bookAvailable e.user]) := by
  rcases returnBook_spec s u transaction_id now with ⟨hfn, hh⟩ |
    ⟨t, hf, hmem, htid, huser, hopen, hh⟩
  · rw [hh] at h
    simp at h
  · have heq := hh.symm.trans h
    injection heq with h1 h2
    injection h2 with h2 h3
    constructor
    · rw [← h2]
    · refine ⟨t, hmem, htid, hopen, ?_, ?_⟩
      · intro hnil
        rw [← h3, hnil]
        rfl
      · intro hne
        cases hE : earliestEntry (s.waitlists.filter (fun w => w.book == t.book)) with
        | none => exact absurd ((earliestEntry_none_iff _).mp hE) hne
        | some e =>
            obtain ⟨he1, he2⟩ := earliestEntry_spec _ e hE
            refine ⟨e, he1, he2, ?_⟩
            rw [← h3, hE]

/-- Witness for the amended C1 theorem: the concrete return in `c1State`. -/
theorem C1_witness :
    returnBook c1State exUser 1 50 =
      (.ok c1Closed, c1After, [Notification.bookAvailable 20]) ∧
    (c1After.waitlists = c1State.waitlists ∧
     ∃ t, t ∈ c1State.transactions ∧ t.id = 1 ∧ t.return_date = none ∧
       (c1State.waitlists.filter (fun w => w.book == t.book) = [] →
         [Notification.bookAvailable 20] = ([] : List Notification)) ∧
       (c1State.waitlists.filter (fun w => w.book == t.book) ≠ [] →
         ∃ e, e ∈ c1State.waitlists.filter (fun w => w.book == t.book) ∧
           (∀ x ∈ c1State.waitlists.filter (fun w => w.book == t.book),
             e.created_at ≤ x.created_at) ∧
           [Notification.bookAvailable 20] =
             [Notification.bookAvailable e.user])) :=
  ⟨by decide,
   C1_return_notifies_earliest_entry_without_removing_it c1State exUser 1 50
     c1Closed c1After [Notification.bookAvailable 20] (by decide)⟩

/-- C4: a successful checkout followed (at any no-earlier time) by the same
member returning the created transaction restores the book table — in
particular the `copies_available` of the book — to its pre-checkout value, and
closes the loan: derived status `returned`, return timestamp `n₂ ≥ n₁` the
checkout timestamp. -/
theorem C4_checkout_return_roundtrip
    (s : LibState) (u : User) (book_id n₁ n₂ : Nat) (t : Transaction)
    (s₁ : LibState) (h : checkout s u book_id n₁ = (.created t, s₁))
    (hle : n₁ ≤ n₂) :
    ∃ s₂ notifs,
      returnBook s₁ u t.id n₂ =
        (.ok { t with return_date := some n₂ }, s₂, notifs) ∧
      s₂.books = s.books ∧
      (∀ m, Transaction.status { t with return_date := some n₂ } m =
        "returned") ∧
      ({ t with return_date := some n₂ }).return_date = some n₂ ∧
      ({ t with return_date := some n₂ }).checkout_date = n₁ ∧
      n₁ ≤ n₂ := by
  rcases checkout_spec s u book_id n₁ with ⟨c', e', hh⟩ |
    ⟨book, hfb, hpos, _, _, _, hh⟩
  · rw [hh] at h
    simp at h
  · have heq := hh.symm.trans h
    injection heq with h1 h2
    injection h1 with h1
    subst h1
    have h2t : s₁.transactions =
        newTransaction s.nextTid u.id book_id n₁ :: s.transactions := by
      rw [← h2]
    have h2b : s₁.books = s.books.map (fun b =>
        if b.id == book_id then
          { b with copies_available := b.copies_available - 1 }
        else b) := by
      rw [← h2]
    have hfind : s₁.transactions.find? (fun x =>
        x.id == (newTransaction s.nextTid u.id book_id n₁).id &&
        x.user == u.id && x.return_date.isNone) =
        some (newTransaction s.nextTid u.id book_id n₁) := by
      rw [h2t]
      exact List.find?_cons_of_pos _ (by simp [newTransaction])
    rcases returnBook_spec s₁ u (newTransaction s.nextTid u.id book_id n₁).id
        n₂ with ⟨hfn, hh2⟩ | ⟨t0, hf0, hmem0, htid0, huser0, hopen0, hh2⟩
    · rw [hfind] at hfn
      cases hfn
    · rw [hfind] at hf0
      injection hf0 with hf0
      subst hf0
      refine ⟨_, _, hh2, ?_, ?_, rfl, rfl, hle⟩
      · show (s₁.books.map (fun b =>
          if b.id == (newTransaction s.nextTid u.id book_id n₁).book then
            { b with copies_available := b.copies_available + 1 }
          else b)) = s.books
        rw [h2b]
        exact dec_then_inc s.books book_id
      · intro m
        rfl

/-- Witness for C4: checkout at time 100, return at time 200, in
`exState`. -/
theorem C4_witness :
    checkout exState exUser 1 100 =
      (.created (newTransaction 1 10 1 100), exCheckoutState) ∧
    100 ≤ 200 ∧
    (∃ s₂ notifs,
      returnBook exCheckoutState exUser (newTransaction 1 10 1 100).id 200 =
        (.ok { newTransaction 1 10 1 100 with return_date := some 200 },
         s₂, notifs) ∧
      s₂.books = exState.books ∧
      (∀ m, Transaction.status
        { newTransaction 1 10 1 100 with return_date := some 200 } m =
        "returned") ∧
      ({ newTransaction 1 10 1 100 with
         return_date := some 200 }).return_date = some 200 ∧
      ({ newTransaction 1 10 1 100 with
         return_date := some 200 }).checkout_date = 100 ∧
      100 ≤ 200) :=
  ⟨by decide, by decide,
   C4_checkout_return_roundtrip exState exUser 1 100 200
     (newTransaction 1 10 1 100) exCheckoutState (by decide) (by decide)⟩

/-- C3: in every state reachable from a well-formed initial state (empty
ledger) through checkout/return/waitlist requests, the `copies_available` of every
book is non-negative, and the stock of each book plus its open loans
equals the initial stock — so the stock never exceeds initial copies plus
completed returns minus outstanding checkouts. -/
theorem C3_copies_nonneg_and_conserved (s₀ s : LibState) (h₀ : Init s₀)
    (hr : Reachable s₀ s) :
    (∀ b ∈ s.books, 0 ≤ b.copies_available) ∧
    (∀ bid, bookStock s bid + (openLoans s bid : Int) = bookStock s₀ bid) := by
  obtain ⟨hWF, hempty⟩ := h₀
  obtain ⟨hWF', hcons⟩ := reachable_WF_conserved s₀ s hWF hr
  refine ⟨hWF'.copiesNonneg, fun bid => ?_⟩
  rw [hcons bid]
  simp [openLoans, hempty]

/-- Witness for C3: one checkout step from the one-book initial state. -/
theorem C3_witness :
    Init exState ∧ Reachable exState exCheckoutState ∧
    ((∀ b ∈ exCheckoutState.books, 0 ≤ b.copies_available) ∧
     (∀ bid, bookStock exCheckoutState bid +
        (openLoans exCheckoutState bid : Int) = bookStock exState bid)) :=
  ⟨⟨⟨by decide, by decide, by decide, by decide, by decide⟩, rfl⟩,
   Relation.ReflTransGen.single (Step.checkoutStep exState exUser 1 100),
   C3_copies_nonneg_and_conserved exState exCheckoutState
     ⟨⟨by decide, by decide, by decide, by decide, by decide⟩, rfl⟩
     (Relation.ReflTransGen.single (Step.checkoutStep exState exUser 1 100))⟩

/-- C5: in every reachable state at most one open loan row exists per
(user, book) pair; a checkout by a user who already holds an open loan on
that book never creates a row and never changes the state, and — when the
serializer, membership, limit and availability checks all pass — the error
it fails with is precisely the already-borrowed 400. -/
theorem C5_at_most_one_open_loan_per_pair (s₀ s : LibState) (h₀ : Init s₀)
    (hr : Reachable s₀ s) :
    atMostOneOpen s ∧
    (∀ (u : User) (bid now : Nat),
      s.transactions.any (isOpenFor u.id bid) = true →
      (∀ t s', checkout s u bid now ≠ (.created t, s')) ∧
      (checkout s u bid now).2 = s) ∧
    (∀ (u : User) (bid now : Nat) (book : Book),
      findBook s bid = some book → 0 < book.copies_available →
      u.is_active_member = true →
      activeCount s u.id < MAX_ACTIVE_TRANSACTIONS →
      s.transactions.any (isOpenFor u.id bid) = true →
      checkout s u bid now = (.error 400 .alreadyCheckedOut, s)) := by
  obtain ⟨hWF, hempty⟩ := h₀
  refine ⟨reachable_atMostOne s₀ s hWF hempty hr, ?_, ?_⟩
  · intro u bid now hany
    rcases checkout_spec s u bid now with ⟨c, e, hh⟩ |
      ⟨book, _, _, _, _, hopen, hh⟩
    · refine ⟨fun t s' heq => ?_, by rw [hh]⟩
      rw [hh] at heq
      simp at heq
    · rw [hopen] at hany
      cases hany
  · intro u bid now book hfb hpos hact hcnt hany
    have hc1 : ¬(book.copies_available ≤ 0) := by omega
    have hc2 : ¬(MAX_ACTIVE_TRANSACTIONS ≤ activeCount s u.id) := by omega
    simp only [checkout, validate_book_id, hfb]
    rw [if_neg hc1]
    simp only [hact, Bool.not_true, Bool.false_eq_true, if_false]
    rw [if_neg hc2, if_pos hany, if_neg hc1]

/-- Witness for C5: the state after the concrete checkout, where user 10
holds the open loan of book 1. -/
theorem C5_witness :
    Init exState ∧ Reachable exState exCheckoutState ∧
    (atMostOneOpen exCheckoutState ∧
     (∀ (u : User) (bid now : Nat),
       exCheckoutState.transactions.any (isOpenFor u.id bid) = true →
       (∀ t s', checkout exCheckoutState u bid now ≠ (.created t, s')) ∧
       (checkout exCheckoutState u bid now).2 = exCheckoutState) ∧
     (∀ (u : User) (bid now : Nat) (book : Book),
       findBook exCheckoutState bid = some book →
       0 < book.copies_available →
       u.is_active_member = true →
       activeCount exCheckoutState u.id < MAX_ACTIVE_TRANSACTIONS →
       exCheckoutState.transactions.any (isOpenFor u.id bid) = true →
       checkout exCheckoutState u bid now =
         (.error 400 .alreadyCheckedOut, exCheckoutState))) :=
  ⟨⟨⟨by decide, by decide, by decide, by decide, by decide⟩, rfl⟩,
   Relation.ReflTransGen.single (Step.checkoutStep exState exUser 1 100),
   C5_at_most_one_open_loan_per_pair exState exCheckoutState
     ⟨⟨by decide, by decide, by decide, by decide, by decide⟩, rfl⟩
     (Relation.ReflTransGen.single (Step.checkoutStep exState exUser 1 100))⟩

/-- C9: one run of the overdue command enumerates exactly the loan rows with
null return timestamp and a due timestamp strictly before `now`, attempts one
reminder per enumerated row (in queryset order), performs no writes, and a
re-run over the resulting state repeats the identical reminders — no
de-duplication state exists. -/
theorem C9_overdue_scan_enumerates_and_notifies (s : LibState) (now : Nat) :
    (∀ t, t ∈ overdueQuery s now ↔
      (t ∈ s.transactions ∧ t.return_date = none ∧
        ∃ d, t.due_date = some d ∧ d < now)) ∧
    sendOverdueNotificationsCmd s now (fun _ => true) =
      ((overdueQuery s now).map (fun t => Notification.overdueReminder t.user),
       none, s) ∧
    sendOverdueNotificationsCmd
        ((sendOverdueNotificationsCmd s now (fun _ => true)).2.2) now
        (fun _ => true) =
      sendOverdueNotificationsCmd s now (fun _ => true) := by
  refine ⟨?_, ?_, rfl⟩
  · intro t
    simp only [overdueQuery, List.mem_filter, Bool.and_eq_true,
      Option.isNone_iff_eq_none]
    constructor
    · rintro ⟨hmem, h1, h2⟩
      refine ⟨hmem, h1, ?_⟩
      cases hd : t.due_date with
      | none => rw [hd] at h2; cases h2
      | some d =>
          rw [hd] at h2
          exact ⟨d, rfl, by simpa using h2⟩
    · rintro ⟨hmem, h1, d, hd, hlt⟩
      exact ⟨hmem, h1, by rw [hd]; simpa using hlt⟩
  · unfold sendOverdueNotificationsCmd
    rw [sendOverdueLoop_all_true]

/-- C10: with `fail_silently=False`, a raised `send_mail` aborts
`Command.handle`: if the overdue queryset is `pre ++ tf :: post`, every send
in `pre` succeeds and the send for `tf` fails, the run e-mails exactly the
members of `pre` — nothing for `tf` or anything after it — unlike the
return path, whose availability mail is sent with `fail_silently=True`. -/
theorem C10_send_failure_stops_overdue_scan (s : LibState) (now : Nat)
    (sendOk : Transaction → Bool) (pre post : List Transaction)
    (tf : Transaction)
    (hsplit : overdueQuery s now = pre ++ tf :: post)
    (hpre : ∀ t ∈ pre, sendOk t = true) (hf : sendOk tf = false) :
    sendOverdueNotificationsCmd s now sendOk =
      (pre.map (fun t => Notification.overdueReminder t.user), some tf, s) := by
  unfold sendOverdueNotificationsCmd
  rw [hsplit, sendOverdueLoop_split sendOk pre post tf hpre hf]

/-- Witness for C10: two overdue loans, and a mailer that always fails: the
scan stops at the first loan and the second member gets nothing. -/
theorem C10_witness :
    overdueQuery exOverdueState 100 = [] ++ exLoanA :: [exLoanB] ∧
    (∀ t ∈ ([] : List Transaction), (fun (_ : Transaction) => false) t = true) ∧
    (fun (_ : Transaction) => false) exLoanA = false ∧
    sendOverdueNotificationsCmd exOverdueState 100
        (fun (_ : Transaction) => false) =
      (([] : List Transaction).map
        (fun t => Notification.overdueReminder t.user),
       some exLoanA, exOverdueState) :=
  ⟨by decide, by decide, rfl,
   C10_send_failure_stops_overdue_scan exOverdueState 100
     (fun (_ : Transaction) => false) [] [exLoanB] exLoanA (by decide)
     (by decide) rfl⟩
